import Mathlib

/-!
Verification of the classroomWeb person service
(fastApiApp/app: handler/person.py, utils/utils.py, db/postges.py,
models/person.py).

The database table, the request-scoped SQLAlchemy session and the two
handlers are shallowly embedded.  The committed table is a list of
rows; a session carries the committed store, its pending (added but
uncommitted) rows and a close counter.  Failures of the storage layer
(an unreachable connection at commit or at query time) are injected
through a `Faults` record; the primary-key uniqueness constraint on
`id` is checked at commit, as the database would.  The Faker calls are
modelled as concrete functions of integer seeds that respect the
ranges Faker guarantees (`random_int(min=18, max=99)`,
`date_time_between(start_date="-1y", end_date="now")`).
-/

/-- A storage-layer failure (unreachable database, failed query,
violated constraint); `sqlalchemy` errors, never caught in the app. -/
inductive StorageError where
  | storageError
deriving DecidableEq, Repr

/-- A row of the `person` table (class `PersonRecord` in db/postges.py).
`id` models the UUID as a natural number; timestamps are integers. -/
structure PersonRecord where
  id : Nat
  name : String
  age : Nat
  address : String
  phone_number : String
  created_at : Int
  updated_at : Int
  deleted_at : Option Int
deriving DecidableEq, Repr

/-- The response schema `PersonResponse` of models/person.py. -/
structure PersonResponse where
  id : Nat
  name : String
  age : Nat
  address : String
  phone_number : String
  created_at : Int
  updated_at : Int
  deleted_at : Option Int
deriving DecidableEq, Repr

/-- The response schema `AllPersonResponse` of models/person.py. -/
structure AllPersonResponse where
  persons : List PersonResponse
deriving DecidableEq, Repr

/-- The committed contents of the `person` table. -/
abbrev Store := List PersonRecord

/-- Injected storage faults: whether the database connection fails at
commit time and whether it fails at query time. -/
structure Faults where
  commitFails : Bool
  queryFails : Bool
deriving DecidableEq, Repr

/-- A run with a healthy database connection. -/
def noFaults : Faults := ⟨false, false⟩

/-- A request-scoped SQLAlchemy session: the committed store, the rows
added but not yet committed, and how many times `close()` ran. -/
structure Session where
  store : Store
  pending : Store
  closeCount : Nat
deriving DecidableEq, Repr

/-- `db.add(record)`: stage a row in the session, no database I/O. -/
def Session.add (s : Session) (record : PersonRecord) : Session :=
  { s with pending := s.pending ++ [record] }

/-- `db.commit()`: flush pending rows and commit.  Raises
`StorageError` when the connection is down or the primary-key
constraint on `id` is violated; on success the pending rows become
part of the committed store. -/
def Session.commit (s : Session) (f : Faults) : Except StorageError Session :=
  if f.commitFails || s.pending.any (fun record => s.store.any (fun row => row.id == record.id)) then
    Except.error StorageError.storageError
  else
    Except.ok { s with store := s.store ++ s.pending, pending := [] }

/-- `db.refresh(record)`: re-read the row with this record's `id`
from the committed store. -/
def Session.refresh (s : Session) (record : PersonRecord) : Option PersonRecord :=
  s.store.find? (fun row => row.id == record.id)

/-- `db.query(PersonRecord).all()`: full scan of the table; raises
`StorageError` when the connection is down. -/
def Session.query (s : Session) (f : Faults) : Except StorageError Store :=
  if f.queryFails then Except.error StorageError.storageError else Except.ok s.store

/-- `db.close()`: discard uncommitted work and release the session. -/
def Session.close (s : Session) : Session :=
  { s with pending := [], closeCount := s.closeCount + 1 }

/-- `get_pg` of utils/utils.py: open a fresh session over the current
store, run the request body with it (the `yield db`), and close the
session in the `finally` block whether the body succeeded or raised. -/
def get_pg {α : Type} (body : Session → (Except StorageError α) × Session)
    (store : Store) : (Except StorageError α) × Session :=
  let db : Session := { store := store, pending := [], closeCount := 0 }
  let res := body db
  (res.1, res.2.close)

/-- Random seeds consumed by one `post_record` call, one per Faker /
uuid call site. -/
structure Seeds where
  idSeed : Nat
  nameSeed : Nat
  ageSeed : Nat
  addressSeed : Nat
  phoneSeed : Nat
  createdSeed : Nat
  updatedSeed : Nat
deriving DecidableEq, Repr

/-- `uuid.uuid4()`: a 128-bit identifier drawn from the seed. -/
def uuid4 (seed : Nat) : Nat := seed % 2 ^ 128

/-- `faker.name()`: an arbitrary locale name drawn from the seed. -/
def fakerName (seed : Nat) : String := "name" ++ toString seed

/-- `faker.address()`: an arbitrary locale address drawn from the seed. -/
def fakerAddress (seed : Nat) : String := "address" ++ toString seed

/-- `faker.phone_number()`: an arbitrary phone string drawn from the seed. -/
def fakerPhone (seed : Nat) : String := "phone" ++ toString seed

/-- `faker.random_int(min=lo, max=hi)`: a uniform integer in [lo, hi]. -/
def fakerRandomInt (lo hi seed : Nat) : Nat := lo + seed % (hi - lo + 1)

/-- Seconds in the year Faker spans for `start_date="-1y"`. -/
def yearSeconds : Nat := 365 * 24 * 60 * 60

/-- `faker.date_time_between(start_date="-1y", end_date="now")`: a
timestamp in [now - yearSeconds, now]. -/
def fakerDateTimeBetweenPastYear (now : Int) (seed : Nat) : Int :=
  now - (yearSeconds : Int) + ((seed % (yearSeconds + 1) : Nat) : Int)

/-- The `PersonRecord(...)` constructed at the top of `post_record`
(handler/person.py lines 20-29). -/
def makeRecord (r : Seeds) (now : Int) : PersonRecord :=
  { id := uuid4 r.idSeed
    name := fakerName r.nameSeed
    age := fakerRandomInt 18 99 r.ageSeed
    address := fakerAddress r.addressSeed
    phone_number := fakerPhone r.phoneSeed
    created_at := fakerDateTimeBetweenPastYear now r.createdSeed
    updated_at := fakerDateTimeBetweenPastYear now r.updatedSeed
    deleted_at := none }

/-- Body of `post_record` (handler/person.py lines 18-42), run inside
the session provided by `get_pg`: build the record, `db.add`,
`db.commit`, `db.refresh`, and answer with the refreshed row's fields,
`deleted_at` set to `None` in the response. -/
def post_record_body (f : Faults) (r : Seeds) (now : Int) (db : Session) :
    (Except StorageError PersonResponse) × Session :=
  let record := makeRecord r now
  let db1 := db.add record
  match db1.commit f with
  | Except.error e => (Except.error e, db1)
  | Except.ok db2 =>
      match db2.refresh record with
      | none => (Except.error StorageError.storageError, db2)
      | some row =>
          (Except.ok
            { id := row.id
              name := row.name
              age := row.age
              address := row.address
              phone_number := row.phone_number
              created_at := row.created_at
              updated_at := row.updated_at
              deleted_at := none }, db2)

/-- The full POST /person/ request: `post_record` with its session
dependency `Depends(get_pg)`. -/
def post_record (f : Faults) (r : Seeds) (now : Int) (store : Store) :
    (Except StorageError PersonResponse) × Session :=
  get_pg (post_record_body f r now) store

/-- Body of `get_records` (handler/person.py lines 45-62), run inside
the session provided by `get_pg`: query all rows and map each into a
`PersonResponse` with `deleted_at` set to `None`. -/
def get_records_body (f : Faults) (db : Session) :
    (Except StorageError AllPersonResponse) × Session :=
  match db.query f with
  | Except.error e => (Except.error e, db)
  | Except.ok records =>
      (Except.ok
        { persons := records.map (fun record =>
            { id := record.id
              name := record.name
              age := record.age
              address := record.address
              phone_number := record.phone_number
              created_at := record.created_at
              updated_at := record.updated_at
              deleted_at := none }) }, db)

/-- The full GET /person/ request: `get_records` with its session
dependency `Depends(get_pg)`. -/
def get_records (f : Faults) (store : Store) :
    (Except StorageError AllPersonResponse) × Session :=
  get_pg (get_records_body f) store

/-- The field-by-field mapping of a stored row into the response
shape, with `deleted_at` forced to `None` (both handlers build exactly
this). -/
def toResponse (record : PersonRecord) : PersonResponse :=
  { id := record.id
    name := record.name
    age := record.age
    address := record.address
    phone_number := record.phone_number
    created_at := record.created_at
    updated_at := record.updated_at
    deleted_at := none }

/-- Run a list of POST /person/ requests in sequence, each over the
store left by the previous one. -/
def runCreates : List (Faults × Seeds × Int) → Store → Store
  | [], store => store
  | (f, r, now) :: rest, store =>
      runCreates rest (post_record f r now store).2.store

/-- Whether every POST /person/ request in the sequence succeeds. -/
def createsAllSucceed : List (Faults × Seeds × Int) → Store → Bool
  | [], _ => true
  | (f, r, now) :: rest, store =>
      match (post_record f r now store).1 with
      | Except.ok _ => createsAllSucceed rest (post_record f r now store).2.store
      | Except.error _ => false

/-- All-zero seeds, used to exercise the definitions. -/
def seeds0 : Seeds := ⟨0, 0, 0, 0, 0, 0, 0⟩

/-- Seeds with a different identifier, used to exercise the definitions. -/
def seeds1 : Seeds := ⟨1, 1, 1, 1, 1, 1, 1⟩

/-! ## Characterization lemmas -/

lemma find?_append_of_all_neg {p : PersonRecord → Bool} :
    ∀ l1 l2 : Store, (∀ x ∈ l1, p x = false) → (l1 ++ l2).find? p = l2.find? p := by
  intro l1 l2 h
  induction l1 with
  | nil => simp
  | cons a t ih =>
      have ha : p a = false := h a (by simp)
      simp only [List.cons_append, List.find?, ha]
      exact ih (fun x hx => h x (by simp [hx]))

lemma get_records_eq (f : Faults) (store : Store) :
    get_records f store =
      if f.queryFails then
        (Except.error StorageError.storageError, ⟨store, [], 1⟩)
      else
        (Except.ok ⟨store.map toResponse⟩, ⟨store, [], 1⟩) := by
  unfold get_records get_pg get_records_body Session.query Session.close
  by_cases h : f.queryFails <;> simp [h, toResponse]

lemma post_record_eq (f : Faults) (r : Seeds) (now : Int) (store : Store) :
    post_record f r now store =
      if f.commitFails || store.any (fun row => row.id == (makeRecord r now).id) then
        (Except.error StorageError.storageError, ⟨store, [], 1⟩)
      else
        (Except.ok (toResponse (makeRecord r now)),
          ⟨store ++ [makeRecord r now], [], 1⟩) := by
  unfold post_record get_pg post_record_body Session.add Session.commit Session.close
  by_cases hc : f.commitFails
  · simp [hc]
  · simp only [hc, Bool.false_or, List.nil_append, List.any_cons, List.any_nil,
      Bool.or_false]
    by_cases hd : store.any (fun row => row.id == (makeRecord r now).id)
    · simp [hd]
    · have hall : ∀ x ∈ store, (x.id == (makeRecord r now).id) = false := by
        intro x hx
        by_contra hne
        have : store.any (fun row => row.id == (makeRecord r now).id) = true :=
          List.any_eq_true.mpr ⟨x, hx, by revert hne; cases x.id == (makeRecord r now).id <;> simp⟩
        simp [this] at hd
      have hfind : (store ++ [makeRecord r now]).find?
          (fun row => row.id == (makeRecord r now).id) = some (makeRecord r now) := by
        rw [find?_append_of_all_neg store [makeRecord r now] hall]
        simp [List.find?]
      simp [hd, Session.refresh, hfind, toResponse]

lemma post_record_store_cases (f : Faults) (r : Seeds) (now : Int) (store : Store) :
    (post_record f r now store).2.store = store ∨
    (post_record f r now store).2.store = store ++ [makeRecord r now] := by
  rw [post_record_eq]
  split
  · exact Or.inl rfl
  · exact Or.inr rfl

lemma post_record_ok_store (f : Faults) (r : Seeds) (now : Int) (store : Store)
    (resp : PersonResponse) (h : (post_record f r now store).1 = Except.ok resp) :
    (post_record f r now store).2.store = store ++ [makeRecord r now] ∧
    resp = toResponse (makeRecord r now) := by
  rw [post_record_eq] at h ⊢
  split at h
  · simp at h
  · rename_i hcond
    simp only [hcond]
    simp at h
    exact ⟨by simp [hcond], h.symm⟩

/-- C1: for every request to POST /person/ or GET /person/, the
session acquired through `get_pg` is closed exactly once before the
request finishes, on the success path and on every path where a
`StorageError` is raised mid-operation (any fault injection). -/
theorem session_closed_exactly_once (f : Faults) (r : Seeds) (now : Int) (store : Store) :
    (post_record f r now store).2.closeCount = 1 ∧
    (get_records f store).2.closeCount = 1 := by
  constructor
  · rw [post_record_eq]
    split <;> rfl
  · rw [get_records_eq]
    split <;> rfl

/-- C10: GET /person/ performs no writes: whatever the store and the
faults, the committed store after the request equals the store before. -/
theorem get_records_no_writes (f : Faults) (store : Store) :
    (get_records f store).2.store = store := by
  rw [get_records_eq]
  split <;> rfl

/-- C7: with zero stored records, GET /person/ succeeds and returns
the response with an empty persons list, not an error. -/
theorem list_empty_store_ok :
    (get_records noFaults []).1 = Except.ok ⟨[]⟩ := by
  rw [get_records_eq]
  rfl

lemma fakerDateTimeBetweenPastYear_bounds (now : Int) (seed : Nat) :
    now - (yearSeconds : Int) ≤ fakerDateTimeBetweenPastYear now seed ∧
    fakerDateTimeBetweenPastYear now seed ≤ now := by
  unfold fakerDateTimeBetweenPastYear
  have h1 : seed % (yearSeconds + 1) < yearSeconds + 1 :=
    Nat.mod_lt _ (Nat.succ_pos _)
  have h2 : ((seed % (yearSeconds + 1) : Nat) : Int) ≤ (yearSeconds : Int) := by
    exact_mod_cast Nat.lt_succ_iff.mp h1
  have h3 : (0 : Int) ≤ ((seed % (yearSeconds + 1) : Nat) : Int) := Int.natCast_nonneg _
  omega

/-- C8: both generated timestamps lie in the past year up to now, and
the two draws are unordered: for some seeds the generated updated_at
is strictly earlier than the generated created_at. -/
theorem timestamps_past_year_unordered (r : Seeds) (now : Int) :
    (now - (yearSeconds : Int) ≤ (makeRecord r now).created_at ∧
      (makeRecord r now).created_at ≤ now) ∧
    (now - (yearSeconds : Int) ≤ (makeRecord r now).updated_at ∧
      (makeRecord r now).updated_at ≤ now) ∧
    ∃ r2 : Seeds, (makeRecord r2 now).updated_at < (makeRecord r2 now).created_at := by
  refine ⟨?_, ?_, ⟨⟨0, 0, 0, 0, 0, 1, 0⟩, ?_⟩⟩
  · simpa [makeRecord] using fakerDateTimeBetweenPastYear_bounds now r.createdSeed
  · simpa [makeRecord] using fakerDateTimeBetweenPastYear_bounds now r.updatedSeed
  · show fakerDateTimeBetweenPastYear now 0 < fakerDateTimeBetweenPastYear now 1
    unfold fakerDateTimeBetweenPastYear
    have h0 : (0 : Nat) % (yearSeconds + 1) = 0 := Nat.zero_mod _
    have h1 : (1 : Nat) % (yearSeconds + 1) = 1 := by decide
    rw [h0, h1]
    omega

/-- C2: deleted_at is always null: if every stored row has a null
deleted_at then so does every row after a create; the response of a
successful create has a null deleted_at; and every item returned by
the list operation has a null deleted_at regardless of the stored
values. -/
theorem deleted_at_always_null (f : Faults) (r : Seeds) (now : Int) (store : Store) :
    ((∀ rec ∈ store, rec.deleted_at = none) →
      ∀ rec ∈ (post_record f r now store).2.store, rec.deleted_at = none) ∧
    (∀ resp, (post_record f r now store).1 = Except.ok resp →
      resp.deleted_at = none) ∧
    (∀ out, (get_records f store).1 = Except.ok out →
      ∀ p ∈ out.persons, p.deleted_at = none) := by
  refine ⟨?_, ?_, ?_⟩
  · intro hstore rec hrec
    rcases post_record_store_cases f r now store with hc | hc <;> rw [hc] at hrec
    · exact hstore rec hrec
    · rcases List.mem_append.mp hrec with h1 | h2
      · exact hstore rec h1
      · rw [List.mem_singleton.mp h2]
        simp [makeRecord]
  · intro resp h
    rw [(post_record_ok_store f r now store resp h).2]
    simp [toResponse]
  · intro out h p hp
    rw [get_records_eq] at h
    split at h
    · simp at h
    · rw [(Except.ok.injEq _ _).mp h.symm] at hp
      obtain ⟨rec, _, hrec⟩ := List.mem_map.mp hp
      rw [← hrec]
      simp [toResponse]

lemma fakerRandomInt_18_99 (seed : Nat) :
    18 ≤ fakerRandomInt 18 99 seed ∧ fakerRandomInt 18 99 seed ≤ 99 := by
  unfold fakerRandomInt
  have h : seed % (99 - 18 + 1) < 99 - 18 + 1 := Nat.mod_lt _ (by norm_num)
  omega

/-- C3: the generated age lies in [18, 99]; the age in the response
of a successful create lies in [18, 99]; and when every stored row
has an age in [18, 99] (all rows having been produced by the create
operation), so does every item returned by the list operation. -/
theorem age_in_range (f : Faults) (r : Seeds) (now : Int) (store : Store) :
    (18 ≤ (makeRecord r now).age ∧ (makeRecord r now).age ≤ 99) ∧
    (∀ resp, (post_record f r now store).1 = Except.ok resp →
      18 ≤ resp.age ∧ resp.age ≤ 99) ∧
    ((∀ rec ∈ store, 18 ≤ rec.age ∧ rec.age ≤ 99) →
      ∀ out, (get_records f store).1 = Except.ok out →
        ∀ p ∈ out.persons, 18 ≤ p.age ∧ p.age ≤ 99) := by
  refine ⟨?_, ?_, ?_⟩
  · simpa [makeRecord] using fakerRandomInt_18_99 r.ageSeed
  · intro resp h
    rw [(post_record_ok_store f r now store resp h).2]
    simpa [toResponse, makeRecord] using fakerRandomInt_18_99 r.ageSeed
  · intro hstore out h p hp
    rw [get_records_eq] at h
    split at h
    · simp at h
    · rw [(Except.ok.injEq _ _).mp h.symm] at hp
      obtain ⟨rec, hmem, hrec⟩ := List.mem_map.mp hp
      rw [← hrec]
      simpa [toResponse] using hstore rec hmem

/-- C4: a successful POST /person/ appends the freshly generated
record to the committed store (persist + commit), and the response is
that persisted record mapped field-by-field to the response shape. -/
theorem post_record_persists (f : Faults) (r : Seeds) (now : Int) (store : Store)
    (resp : PersonResponse) (h : (post_record f r now store).1 = Except.ok resp) :
    (post_record f r now store).2.store = store ++ [makeRecord r now] ∧
    resp.id = (makeRecord r now).id ∧
    resp.name = (makeRecord r now).name ∧
    resp.age = (makeRecord r now).age ∧
    resp.address = (makeRecord r now).address ∧
    resp.phone_number = (makeRecord r now).phone_number ∧
    resp.created_at = (makeRecord r now).created_at ∧
    resp.updated_at = (makeRecord r now).updated_at := by
  obtain ⟨hstore, hresp⟩ := post_record_ok_store f r now store resp h
  subst hresp
  exact ⟨hstore, rfl, rfl, rfl, rfl, rfl, rfl, rfl⟩

/-- C6: on every successful create, the returned id differs from the
id of every previously stored record (the primary-key constraint
rejects a duplicate at commit, so success implies freshness). -/
theorem create_id_fresh (f : Faults) (r : Seeds) (now : Int) (store : Store)
    (resp : PersonResponse) (h : (post_record f r now store).1 = Except.ok resp) :
    ∀ rec ∈ store, resp.id ≠ rec.id := by
  intro rec hrec
  rw [post_record_eq] at h
  split at h
  · simp at h
  · rename_i hcond
    have hresp : resp = toResponse (makeRecord r now) := by
      simpa using h.symm
    have hno : ¬ (f.commitFails = true ∨
        store.any (fun row => row.id == (makeRecord r now).id) = true) := by
      simpa [Bool.or_eq_true] using hcond
    have hany : store.any (fun row => row.id == (makeRecord r now).id) = false := by
      rcases Bool.eq_false_or_eq_true
          (store.any (fun row => row.id == (makeRecord r now).id)) with h1 | h1
      · exact absurd (Or.inr h1) hno
      · exact h1
    have hfalse : (rec.id == (makeRecord r now).id) = false := by
      rcases Bool.eq_false_or_eq_true (rec.id == (makeRecord r now).id) with h1 | h1
      · exfalso
        have hcontra : store.any (fun row => row.id == (makeRecord r now).id) = true :=
          List.any_eq_true.mpr ⟨rec, hrec, h1⟩
        rw [hcontra] at hany
        simp at hany
      · exact h1
    intro heq
    rw [hresp] at heq
    have : (rec.id == (makeRecord r now).id) = true := by
      simpa [toResponse] using (beq_iff_eq).mpr heq.symm
    simp [this] at hfalse

/-- C9: the create operation is atomic with respect to errors: when
POST /person/ raises a StorageError, the committed store is unchanged
and the session ends with no pending row (closed without an effective
commit). -/
theorem create_atomic_on_error (f : Faults) (r : Seeds) (now : Int) (store : Store)
    (e : StorageError) (h : (post_record f r now store).1 = Except.error e) :
    (post_record f r now store).2.store = store ∧
    (post_record f r now store).2.pending = [] := by
  rw [post_record_eq] at h ⊢
  split at h
  · rename_i hcond
    simp [hcond]
  · simp at h

lemma runCreates_length (steps : List (Faults × Seeds × Int)) :
    ∀ store : Store, createsAllSucceed steps store = true →
      store.length + steps.length ≤ (runCreates steps store).length := by
  induction steps with
  | nil =>
      intro store _
      simp [runCreates]
  | cons step rest ih =>
      intro store h
      obtain ⟨f, r, now⟩ := step
      unfold createsAllSucceed at h
      unfold runCreates
      cases hres : (post_record f r now store).1 with
      | error e => rw [hres] at h; simp at h
      | ok resp =>
          rw [hres] at h
          simp only at h
          have hstore := (post_record_ok_store f r now store resp hres).1
          have := ih (post_record f r now store).2.store h
          rw [hstore] at this ⊢
          simp at this ⊢
          omega

/-- C5: after a sequence of N successful creates the list operation
returns at least N records, and no operation ever removes a record
from the store (every stored record survives both a create and a
list request). -/
theorem creates_then_list_at_least (steps : List (Faults × Seeds × Int)) (store : Store)
    (h : createsAllSucceed steps store = true) :
    (∃ out, (get_records noFaults (runCreates steps store)).1 = Except.ok out ∧
      steps.length ≤ out.persons.length) ∧
    (∀ (f : Faults) (r : Seeds) (now : Int) (st : Store) (rec : PersonRecord),
      rec ∈ st → rec ∈ (post_record f r now st).2.store ∧
        rec ∈ (get_records f st).2.store) := by
  constructor
  · refine ⟨⟨(runCreates steps store).map toResponse⟩, ?_, ?_⟩
    · rw [get_records_eq]
      rfl
    · have := runCreates_length steps store h
      simp only [List.length_map]
      omega
  · intro f r now st rec hrec
    constructor
    · rcases post_record_store_cases f r now st with hc | hc <;> rw [hc]
      · exact hrec
      · exact List.mem_append.mpr (Or.inl hrec)
    · rw [get_records_eq]
      split <;> exact hrec

/-! ## Concrete witnesses -/

/-- Two healthy create requests with distinct identifier seeds. -/
def steps2 : List (Faults × Seeds × Int) := [(noFaults, seeds0, 0), (noFaults, seeds1, 0)]

/-- A run whose database connection fails at commit time. -/
def commitFault : Faults := ⟨true, false⟩

theorem deleted_at_always_null_witness :
    (∀ rec ∈ (post_record noFaults seeds0 0 []).2.store, rec.deleted_at = none) ∧
    (toResponse (makeRecord seeds0 0)).deleted_at = none := by
  refine ⟨(deleted_at_always_null noFaults seeds0 0 []).1 (by simp), ?_⟩
  exact (deleted_at_always_null noFaults seeds0 0 []).2.1
    (toResponse (makeRecord seeds0 0)) (by rfl)

theorem age_in_range_witness :
    (18 ≤ (makeRecord seeds0 0).age ∧ (makeRecord seeds0 0).age ≤ 99) ∧
    (18 ≤ (toResponse (makeRecord seeds0 0)).age ∧
      (toResponse (makeRecord seeds0 0)).age ≤ 99) := by
  refine ⟨(age_in_range noFaults seeds0 0 []).1, ?_⟩
  exact (age_in_range noFaults seeds0 0 []).2.1
    (toResponse (makeRecord seeds0 0)) (by rfl)

theorem post_record_persists_witness :
    (post_record noFaults seeds0 0 []).2.store = [] ++ [makeRecord seeds0 0] ∧
    (toResponse (makeRecord seeds0 0)).id = (makeRecord seeds0 0).id := by
  have h := post_record_persists noFaults seeds0 0 []
    (toResponse (makeRecord seeds0 0)) (by rfl)
  exact ⟨h.1, h.2.1⟩

theorem create_id_fresh_witness :
    (toResponse (makeRecord seeds0 0)).id ≠ (makeRecord seeds1 0).id :=
  create_id_fresh noFaults seeds0 0 [makeRecord seeds1 0]
    (toResponse (makeRecord seeds0 0)) (by rfl) (makeRecord seeds1 0) (by simp)

theorem create_atomic_on_error_witness :
    (post_record commitFault seeds0 0 [makeRecord seeds1 0]).2.store =
      [makeRecord seeds1 0] ∧
    (post_record commitFault seeds0 0 [makeRecord seeds1 0]).2.pending = [] :=
  create_atomic_on_error commitFault seeds0 0 [makeRecord seeds1 0]
    StorageError.storageError (by rfl)

theorem creates_then_list_at_least_witness :
    ∃ out, (get_records noFaults (runCreates steps2 [])).1 = Except.ok out ∧
      steps2.length ≤ out.persons.length :=
  (creates_then_list_at_least steps2 [] (by rfl)).1
